import Mathlib

/-!
Verification of the nocturne compositor core against its specification.

The definitions below are a shallow embedding of the C sources:
`src/cursor.c` (pointer engine: interactive move/resize, cursor modes),
`src/utils.c` (focus, cycle, hit-test ancestor walk), `src/keyboard.c`
(key dispatch and keybinding interception), `src/config.c` (binding
tables) and `src/main.c` (`process_args`).  Cursor coordinates are C
`double`s that the code truncates to `int` on assignment; we model them
as `Int`, on which the truncation is the identity, so every concrete
scenario with integer coordinates is represented exactly.
-/

namespace Nocturne

/-! ### Edge bitmask constants (`enum wlr_edges`) -/

def WLR_EDGE_TOP : Nat := 1

def WLR_EDGE_BOTTOM : Nat := 2

def WLR_EDGE_LEFT : Nat := 4

def WLR_EDGE_RIGHT : Nat := 8

/-- A `struct wlr_box`: position and size, all C `int`. -/
structure Box where
  x : Int
  y : Int
  width : Int
  height : Int
  deriving DecidableEq, Repr

/-! ### Pointer engine: interactive move (`src/cursor.c`) -/

/-- The grab recorded by `begin_interactive` in the `TINYWL_CURSOR_MOVE`
branch: `grab = cursor - scene_tree->node` origin. -/
def begin_interactive_move (cursor sceneOrigin : Int × Int) : Int × Int :=
  (cursor.1 - sceneOrigin.1, cursor.2 - sceneOrigin.2)

/-- `process_cursor_move`: the grabbed toplevel's scene node is moved to
`(cursor.x - grab_x, cursor.y - grab_y)`. -/
def process_cursor_move (cursor grab : Int × Int) : Int × Int :=
  (cursor.1 - grab.1, cursor.2 - grab.2)

/-! ### Pointer engine: interactive resize (`src/cursor.c`) -/

/-- The per-grab state recorded by `begin_interactive` in the resize
branch: `grab_x/grab_y`, `grab_geobox` and `resize_edges` fields of
`struct tinywl_server`. -/
structure ResizeGrab where
  grab_x : Int
  grab_y : Int
  grab_geobox : Box
  resize_edges : Nat
  deriving DecidableEq, Repr

/-- `begin_interactive`, resize branch: the grabbed border corner is the
scene origin plus the geometry origin, plus width/height when the right/
bottom edge is active; `grab = cursor - border`; `grab_geobox` is the
geometry translated by the scene origin; `resize_edges` is stored
verbatim. -/
def begin_interactive_resize (cursor sceneOrigin : Int × Int) (geo : Box)
    (edges : Nat) : ResizeGrab :=
  let border_x := (sceneOrigin.1 + geo.x) +
    (if edges &&& WLR_EDGE_RIGHT ≠ 0 then geo.width else 0)
  let border_y := (sceneOrigin.2 + geo.y) +
    (if edges &&& WLR_EDGE_BOTTOM ≠ 0 then geo.height else 0)
  { grab_x := cursor.1 - border_x
    grab_y := cursor.2 - border_y
    grab_geobox := { geo with x := geo.x + sceneOrigin.1, y := geo.y + sceneOrigin.2 }
    resize_edges := edges }

/-- `process_cursor_resize`: compute candidate edges from `grab_geobox`
adjusted by `cursor - grab` along each active edge, snapping a moving
edge one unit past the opposite edge; reposition the scene node to
`(new_left - geo.x, new_top - geo.y)` (`geo` is the toplevel's current
geometry) and request client size `(new_right - new_left, new_bottom -
new_top)`.  Result: `(position, (new_width, new_height))`. -/
def process_cursor_resize (g : ResizeGrab) (cursor : Int × Int) (geo : Box) :
    (Int × Int) × (Int × Int) :=
  let border_x := cursor.1 - g.grab_x
  let border_y := cursor.2 - g.grab_y
  let new_left := g.grab_geobox.x
  let new_right := g.grab_geobox.x + g.grab_geobox.width
  let new_top := g.grab_geobox.y
  let new_bottom := g.grab_geobox.y + g.grab_geobox.height
  let tb : Int × Int :=
    if g.resize_edges &&& WLR_EDGE_TOP ≠ 0 then
      (if border_y ≥ new_bottom then new_bottom - 1 else border_y, new_bottom)
    else if g.resize_edges &&& WLR_EDGE_BOTTOM ≠ 0 then
      (new_top, if border_y ≤ new_top then new_top + 1 else border_y)
    else
      (new_top, new_bottom)
  let lr : Int × Int :=
    if g.resize_edges &&& WLR_EDGE_LEFT ≠ 0 then
      (if border_x ≥ new_right then new_right - 1 else border_x, new_right)
    else if g.resize_edges &&& WLR_EDGE_RIGHT ≠ 0 then
      (new_left, if border_x ≤ new_left then new_left + 1 else border_x)
    else
      (new_left, new_right)
  ((lr.1 - geo.x, tb.1 - geo.y), (lr.2 - lr.1, tb.2 - tb.1))

/-! ### Interaction-state machine (`src/cursor.c`, `src/toplevel.c`) -/

/-- `enum tinywl_cursor_mode`. -/
inductive CursorMode where
  | passthrough
  | move
  | resize
  deriving DecidableEq, Repr

/-- The interaction-state fields of `struct tinywl_server`, plus the
mapped-toplevel list.  Toplevels are identified by `Nat` ids; the grab
coordinates are modelled separately by `ResizeGrab` above. -/
structure Server where
  cursor_mode : CursorMode
  grabbed_toplevel : Option Nat
  resize_edges : Nat
  toplevels : List Nat
  deriving DecidableEq, Repr

/-- `reset_cursor_mode`: mode back to passthrough, grab cleared. -/
def reset_cursor_mode (s : Server) : Server :=
  { s with cursor_mode := CursorMode.passthrough, grabbed_toplevel := none }

/-- `begin_interactive` restricted to the fields of `Server`: records
the grabbed toplevel and the mode; the resize branch also stores the
edge bitmask (the move branch leaves `resize_edges` untouched). -/
def begin_interactive (s : Server) (t : Nat) (mode : CursorMode)
    (edges : Nat) : Server :=
  if mode = CursorMode.move then
    { s with grabbed_toplevel := some t, cursor_mode := mode }
  else
    { s with grabbed_toplevel := some t, cursor_mode := mode,
             resize_edges := edges }

/-- The events whose handlers touch the interaction state:
`xdg_toplevel_request_move` / `xdg_toplevel_request_resize` (which call
`begin_interactive`), `server_cursor_button`, `xdg_toplevel_map`,
`xdg_toplevel_unmap` and cursor motion. -/
inductive Event where
  | requestMove (t : Nat)
  | requestResize (t : Nat) (edges : Nat)
  | buttonPress
  | buttonRelease
  | mapTop (t : Nat)
  | unmapTop (t : Nat)
  | motion
  deriving DecidableEq, Repr

/-- One handler invocation.  `buttonPress` only focuses the hit
toplevel; `motion` dispatches on the mode but never changes it;
`unmapTop` resets the mode when the unmapped toplevel is the grabbed
one (`src/toplevel.c:23`) and removes it from the sequence. -/
def step (s : Server) : Event → Server
  | Event.requestMove t => begin_interactive s t CursorMode.move 0
  | Event.requestResize t e => begin_interactive s t CursorMode.resize e
  | Event.buttonPress => s
  | Event.buttonRelease => reset_cursor_mode s
  | Event.mapTop t => { s with toplevels := t :: s.toplevels }
  | Event.unmapTop t =>
      let s' := if s.grabbed_toplevel = some t then reset_cursor_mode s else s
      { s' with toplevels := s'.toplevels.erase t }
  | Event.motion => s

/-- The state after `setup_shell_and_input`: passthrough, no grab. -/
def initServer : Server :=
  { cursor_mode := CursorMode.passthrough, grabbed_toplevel := none,
    resize_edges := 0, toplevels := [] }

/-! ### Focus arbiter (`src/utils.c`: `focus_toplevel`, `cycle_toplevel`)

Toplevels are `Nat` ids; each toplevel owns exactly one surface, so the
seat's focused surface is modelled as the id of the toplevel owning it.
`toplevels` is the focus-ordered sequence (front = most recently
focused); `zorder` is the order of the toplevel scene subtrees under
the scene root (front = topmost). -/

/-- The calls `focus_toplevel` makes into wlroots, in order. -/
inductive FocusAction where
  | deactivate (t : Nat)
  | raiseToTop (t : Nat)
  | activate (t : Nat)
  | keyboardEnter (t : Nat)
  deriving DecidableEq, Repr

structure FocusState where
  toplevels : List Nat
  zorder : List Nat
  focused : Option Nat
  deriving DecidableEq, Repr

/-- `focus_toplevel`: `NULL` is a no-op; an already-focused surface is a
no-op; otherwise deactivate the previous toplevel (when there is one),
raise the scene subtree to the top, move the toplevel to the front of
the sequence, activate it and notify the seat.  Returns the new state
and the list of wlroots calls made. -/
def focus_toplevel : Option Nat → FocusState → FocusState × List FocusAction
  | none, st => (st, [])
  | some t, st =>
    if st.focused = some t then (st, [])
    else
      let deact := match st.focused with
        | some p => [FocusAction.deactivate p]
        | none => []
      ({ toplevels := t :: st.toplevels.erase t
         zorder := t :: st.zorder.erase t
         focused := some t },
       deact ++ [FocusAction.raiseToTop t, FocusAction.activate t,
                 FocusAction.keyboardEnter t])

/-- The state component of `focus_toplevel`. -/
def focusSt (t : Option Nat) (st : FocusState) : FocusState :=
  (focus_toplevel t st).1

/-- `cycle_toplevel`: with fewer than two toplevels do nothing;
otherwise focus `server->toplevels.prev`, the back of the sequence. -/
def cycle_toplevel (st : FocusState) : FocusState :=
  if st.toplevels.length < 2 then st
  else
    match st.toplevels.getLast? with
    | none => st
    | some t => focusSt (some t) st

/-- Rotate-right by one: the back of the list moves to the front.  This
is what one `cycle_toplevel` does to the sequence. -/
def rotR : List Nat → List Nat
  | [] => []
  | x :: xs => (x :: xs).getLast (by simp) :: (x :: xs).dropLast

/-- Rotate-left by one, the inverse of `rotR`; proof-only device. -/
def rotL : List Nat → List Nat
  | [] => []
  | x :: xs => xs ++ [x]

/-! ### Keyboard engine (`src/keyboard.c`, `src/config.c`) -/

/-- `MODKEY = WLR_MODIFIER_ALT`. -/
def MODKEY : Nat := 8

/-- The three compositor actions of `c_bindings` (`src/config.c`). -/
inductive CompositorFn where
  | terminateDisplay
  | cycleFn
  | closeFocused
  deriving DecidableEq, Repr

/-- An action executed by `handle_keybinding`: either fork/exec of a
launcher command or a call to a compositor function. -/
inductive KAction where
  | launch (cmd : String)
  | run (f : CompositorFn)
  deriving DecidableEq, Repr

structure UserBinding where
  key : Nat
  command : String
  deriving DecidableEq, Repr

structure CompositorBinding where
  key : Nat
  fptr : CompositorFn
  deriving DecidableEq, Repr

/-- The 14-entry launcher table `bindings` of `src/config.c`, with the
xkbcommon keysym values spelled out. -/
def bindings : List UserBinding :=
  [⟨0xff0d, "kitty"⟩,                                  -- XKB_KEY_Return
   ⟨0x0046, "firefox"⟩,                                -- XKB_KEY_F
   ⟨0x0065, "kitty ranger"⟩,                           -- XKB_KEY_e
   ⟨0x0076, "pavucontrol"⟩,                            -- XKB_KEY_v
   ⟨0x0072, "rofi -show drun"⟩,                        -- XKB_KEY_r
   ⟨0x0063, "kitty qalc"⟩,                             -- XKB_KEY_c
   ⟨0x1008FF02, "light -A 10"⟩,                        -- XF86MonBrightnessUp
   ⟨0x1008FF03, "light -U 10"⟩,                        -- XF86MonBrightnessDown
   ⟨0x1008FF16, "playerctl previous"⟩,                 -- XF86AudioPrev
   ⟨0x1008FF17, "playerctl next"⟩,                     -- XF86AudioNext
   ⟨0x1008FF14, "playerctl play_pause"⟩,               -- XF86AudioPlay
   ⟨0x1008FF13, "pactl set-sink-volume @DEFAULT_SINK@ +10%"⟩,
   ⟨0x1008FF11, "pactl set-sink-volume @DEFAULT_SINK@ -10%"⟩,
   ⟨0x1008FF12, "pactl set-sink-mute @DEFAULT_SINK@ toggle"⟩]

/-- The 3-entry compositor table `c_bindings` of `src/config.c`:
Escape, F1, q. -/
def c_bindings : List CompositorBinding :=
  [⟨0xff1b, CompositorFn.terminateDisplay⟩,
   ⟨0xffbe, CompositorFn.cycleFn⟩,
   ⟨0x0071, CompositorFn.closeFocused⟩]

/-- The first `for` loop of `handle_keybinding`: scan the launcher
table in order; on the first key match return its command (`break`). -/
def scanUser (sym : Nat) : List UserBinding → Option String
  | [] => none
  | b :: rest => if b.key = sym then some b.command else scanUser sym rest

/-- The second `for` loop of `handle_keybinding`, over the compositor
table. -/
def scanComp (sym : Nat) : List CompositorBinding → Option CompositorFn
  | [] => none
  | b :: rest => if b.key = sym then some b.fptr else scanComp sym rest

/-- `handle_keybinding`: run the launcher loop, then the compositor
loop (both always run; each executes the first match it finds);
`match_found` is true when either loop matched.  Returns
`(match_found, actions executed in order)`. -/
def handle_keybinding (sym : Nat) : Bool × List KAction :=
  let u := scanUser sym bindings
  let c := scanComp sym c_bindings
  ((u.isSome || c.isSome),
   (match u with | some cmd => [KAction.launch cmd] | none => []) ++
   (match c with | some f => [KAction.run f] | none => []))

/-- The binding loop of `keyboard_handle_key`: for each keysym in order,
`handled = handle_keybinding(server, syms[i])` — note the plain
assignment, which overwrites the previous iteration's result — while
the matched actions execute as side effects.  The accumulator is
`(handled, actions so far)`. -/
def keyFoldStep (acc : Bool × List KAction) (sym : Nat) :
    Bool × List KAction :=
  ((handle_keybinding sym).1, acc.2 ++ (handle_keybinding sym).2)

def keyLoop (syms : List Nat) : Bool × List KAction :=
  syms.foldl keyFoldStep (false, [])

/-- `keyboard_handle_key` on an event with modifier mask `mods` and
keysym list `syms`: when ALT is held and the key was pressed, run the
binding loop; the event is forwarded to the focused client iff
`handled` ended up false.  Returns `(forwarded, actions)`. -/
def keyboard_handle_key (mods : Nat) (pressed : Bool) (syms : List Nat) :
    Bool × List KAction :=
  let r := if mods &&& MODKEY ≠ 0 ∧ pressed then keyLoop syms else (false, [])
  (!r.1, r.2)

/-! ### Command-line handling (`src/main.c`: `process_args`, `main`) -/

/-- The value `process_args` returns, as consumed by `main`:
`1` → continue initialization, `0` → exit successfully (after `-h`),
`-1` → exit with failure. -/
inductive ArgsResult where
  | proceed (startup_cmd : Option (List Char))
  | usageExit
  | errorExit
  deriving DecidableEq, Repr

/-- The `while ((c = getopt(argc, argv, "s:h")) != -1)` loop of
`process_args`, with POSIX `getopt` semantics inlined (the code's own
comment names POSIX getopt).  `argv` is the full argument vector
including the program name, `optind` the index getopt will look at
next.  `getopt` returns -1 (ending the loop, hence `return 1`) at the
end of `argv`, at the first non-option argument, and after a literal
`--`; `'h'` makes `process_args` return 0 at once; an option character
other than `h`/`s` yields `'?'`, hence `return -1`; `'s'` consumes the
rest of its element, or the following element, as `optarg`.  After each
processed option the code checks `optind < argc` and returns -1 when
arguments remain.  Fuel bounds the recursion; `process_args` supplies
enough for the whole vector. -/
def argsLoop (argv : List (List Char)) :
    Nat → Nat → Option (List Char) → ArgsResult
  | 0, _, cmd => ArgsResult.proceed cmd
  | fuel + 1, optind, cmd =>
    match argv.get? optind with
    | none => ArgsResult.proceed cmd
    | some elem =>
      match elem with
      | d :: c :: opttail =>
        if d ≠ '-' then ArgsResult.proceed cmd
        else if c = '-' ∧ opttail = [] then ArgsResult.proceed cmd
        else if c = 'h' then ArgsResult.usageExit
        else if c = 's' then
          match opttail with
          | [] =>
            match argv.get? (optind + 1) with
            | none => ArgsResult.errorExit
            | some a =>
              if optind + 2 < argv.length then ArgsResult.errorExit
              else argsLoop argv fuel (optind + 2) (some a)
          | _ :: _ =>
            if optind + 1 < argv.length then ArgsResult.errorExit
            else argsLoop argv fuel (optind + 1) (some opttail)
        else ArgsResult.errorExit
      | _ => ArgsResult.proceed cmd

/-- `process_args(argc, argv, &startup_cmd)`. -/
def process_args (argv : List (List Char)) : ArgsResult :=
  argsLoop argv (argv.length + 1) 1 none

/-- What `main` does with the result of `process_args`
(`src/main.c:637`): `-1` → `exit(EXIT_FAILURE)` before any
initialization stage, `0` → `exit(EXIT_SUCCESS)`, `1` → run the
initialization stages and the event loop. -/
inductive MainOutcome where
  | exitSuccess
  | exitFailurePreInit
  | runsCompositor (startup_cmd : Option (List Char))
  deriving DecidableEq, Repr

def main_disposition (argv : List (List Char)) : MainOutcome :=
  match process_args argv with
  | ArgsResult.proceed cmd => MainOutcome.runsCompositor cmd
  | ArgsResult.usageExit => MainOutcome.exitSuccess
  | ArgsResult.errorExit => MainOutcome.exitFailurePreInit

/-! ### Hit-test ancestor walk (`src/utils.c`: `desktop_toplevel_at`) -/

/-- The result of the ancestor walk at the end of
`desktop_toplevel_at`: either the owning toplevel read from a tree
whose `node.data` is non-null, or a null-pointer dereference when the
walk ran off the root (`tree == NULL` yet `tree->node.data` is read).
The argument is the chain of `data` fields of the scene trees from the
hit buffer node's parent up to the root, in order. -/
def ancestor_data_walk : List (Option Nat) → Except Unit Nat
  | [] => Except.error ()
  | some d :: _ => Except.ok d
  | none :: rest => ancestor_data_walk rest

/-- `server_new_xdg_toplevel` sets `toplevel->scene_tree->node.data =
toplevel` (`src/toplevel.c:152`): the chain of a surface created there
carries its owner at the toplevel's scene tree. -/
def toplevel_surface_chain (pre : List (Option Nat)) (t : Nat)
    (rest : List (Option Nat)) : List (Option Nat) :=
  pre ++ some t :: rest

/-! ## Theorems -/

/-- The coupling invariant of the interaction state. -/
def ModeGrabInv (s : Server) : Prop :=
  s.grabbed_toplevel = none ↔ s.cursor_mode = CursorMode.passthrough

theorem step_preserves_coupling {s : Server} (h : ModeGrabInv s) (e : Event) :
    ModeGrabInv (step s e) := by
  cases e with
  | requestMove t => simp [ModeGrabInv, step, begin_interactive]
  | requestResize t e => simp [ModeGrabInv, step, begin_interactive]
  | buttonPress => exact h
  | buttonRelease => simp [ModeGrabInv, step, reset_cursor_mode]
  | mapTop t => exact h
  | unmapTop t =>
      by_cases hg : s.grabbed_toplevel = some t
      · simp [ModeGrabInv, step, hg, reset_cursor_mode]
      · simpa [ModeGrabInv, step, hg] using h
  | motion => exact h

theorem foldl_preserves_coupling (evs : List Event) (s : Server)
    (h : ModeGrabInv s) : ModeGrabInv (evs.foldl step s) := by
  induction evs generalizing s with
  | nil => exact h
  | cons e evs ih => exact ih _ (step_preserves_coupling h e)

/-- C1: after any sequence of interaction events handled from the
initial state (client move/resize requests, button press/release,
map/unmap, cursor motion), the grabbed toplevel is `none` exactly when
the cursor mode is passthrough. -/
theorem interaction_mode_grab_coupling (evs : List Event) :
    ((evs.foldl step initServer).grabbed_toplevel = none ↔
      (evs.foldl step initServer).cursor_mode = CursorMode.passthrough) :=
  foldl_preserves_coupling evs initServer (by simp [ModeGrabInv, initServer])

/-- C8 counterexample: a client-issued `request_resize` with edge
bitmask 0 is passed verbatim to `begin_interactive`, reaching a state
whose cursor mode is resize while no bit of `resize_edges` is set —
the claimed invariant fails on this reachable state. -/
theorem resize_edges_zero_reachable :
    (([Event.requestResize 0 0]).foldl step initServer).cursor_mode =
        CursorMode.resize ∧
    (([Event.requestResize 0 0]).foldl step initServer).resize_edges = 0 := by
  decide

/-- The amended invariant as a state predicate. -/
def ResizeEdgesInv (s : Server) : Prop :=
  s.cursor_mode = CursorMode.resize → s.resize_edges ≠ 0

theorem foldl_preserves_resize_edges (evs : List Event) (s : Server)
    (h : ResizeEdgesInv s)
    (he : ∀ t e, Event.requestResize t e ∈ evs → e ≠ 0) :
    ResizeEdgesInv (evs.foldl step s) := by
  induction evs generalizing s with
  | nil => exact h
  | cons ev evs ih =>
    refine ih _ ?_ (fun t e hm => he t e (List.mem_cons_of_mem _ hm))
    cases ev with
    | requestMove t =>
        intro hmode
        simp [step, begin_interactive] at hmode
    | requestResize t e =>
        intro _
        have hne : e ≠ 0 := he t e (List.mem_cons_self _ _)
        simpa [step, begin_interactive] using hne
    | buttonPress => exact h
    | buttonRelease =>
        intro hmode
        simp [step, reset_cursor_mode] at hmode
    | mapTop t =>
        intro hmode
        exact h hmode
    | unmapTop t =>
        intro hmode
        by_cases hg : s.grabbed_toplevel = some t
        · simp [step, hg, reset_cursor_mode] at hmode
        · simp [step, hg] at hmode ⊢
          exact h hmode
    | motion => exact h

/-- C8 amended: whenever the cursor mode is resize, `resize_edges`
holds the bitmask of the initiating `request_resize` verbatim, so the
claimed invariant (at least one bit set) holds for every reachable
state provided every client-issued `request_resize` carries a nonzero
edge bitmask; with a zero bitmask it fails
(`resize_edges_zero_reachable`). -/
theorem resize_mode_edges_nonzero (evs : List Event)
    (he : ∀ t e, Event.requestResize t e ∈ evs → e ≠ 0)
    (hm : (evs.foldl step initServer).cursor_mode = CursorMode.resize) :
    (evs.foldl step initServer).resize_edges ≠ 0 :=
  foldl_preserves_resize_edges evs initServer
    (by simp [ResizeEdgesInv, initServer]) he hm

/-- Witness for `resize_mode_edges_nonzero` at the one-event trace
`request_resize` with edges `WLR_EDGE_TOP`. -/
theorem resize_mode_edges_nonzero_witness :
    (([Event.requestResize 0 1]).foldl step initServer).resize_edges ≠ 0 :=
  resize_mode_edges_nonzero [Event.requestResize 0 1]
    (by intro t e hm; simp at hm; omega) (by decide)

/-- C2: any `process_cursor_resize` on a grab whose recorded
`grab_geobox` has positive size (as every mapped toplevel's geometry
does: the shell protocol rejects non-positive window geometry)
requests a width and height of at least 1; and the S3 grab (scene
origin `(0,0)`, geometry `(0,0,200,100)`, grab at cursor `(200,100)`
with edges right|bottom) moved to cursor `(-1,-1)` requests exactly
`(1, 1)`. -/
theorem process_cursor_resize_nondegenerate :
    (∀ (g : ResizeGrab) (cursor : Int × Int) (geo : Box),
        1 ≤ g.grab_geobox.width → 1 ≤ g.grab_geobox.height →
        1 ≤ (process_cursor_resize g cursor geo).2.1 ∧
        1 ≤ (process_cursor_resize g cursor geo).2.2) ∧
    (process_cursor_resize
        (begin_interactive_resize (200, 100) (0, 0) ⟨0, 0, 200, 100⟩
          (WLR_EDGE_RIGHT ||| WLR_EDGE_BOTTOM))
        (-1, -1) ⟨0, 0, 200, 100⟩).2 = (1, 1) := by
  constructor
  · intro g cursor geo hw hh
    simp only [process_cursor_resize]
    constructor <;> split_ifs <;> dsimp only <;> omega
  · decide

/-- Witness for `process_cursor_resize_nondegenerate` at the S3 grab
state taken to cursor `(-1, -1)`. -/
theorem process_cursor_resize_nondegenerate_witness :
    1 ≤ (process_cursor_resize ⟨0, 0, ⟨0, 0, 200, 100⟩, 10⟩ (-1, -1)
          ⟨0, 0, 200, 100⟩).2.1 ∧
    1 ≤ (process_cursor_resize ⟨0, 0, ⟨0, 0, 200, 100⟩, 10⟩ (-1, -1)
          ⟨0, 0, 200, 100⟩).2.2 :=
  process_cursor_resize_nondegenerate.1 _ _ _ (by decide) (by decide)

/-- C7: in move mode every `process_cursor_move` puts the scene node at
`cursor - grab`, where the grab recorded by `begin_interactive` for
move is `cursor - scene origin` — so a cursor displacement translates
the node exactly; concretely, grabbing at cursor `(150,120)` with scene
origin `(100,100)` gives grab `(50,20)`, and cursor `(200,140)` puts
the scene origin at `(150,120)`. -/
theorem process_cursor_move_spec :
    (∀ c0 p0 c1 : Int × Int,
        process_cursor_move c1 (begin_interactive_move c0 p0) =
          (p0.1 + (c1.1 - c0.1), p0.2 + (c1.2 - c0.2))) ∧
    begin_interactive_move (150, 120) (100, 100) = (50, 20) ∧
    process_cursor_move (200, 140) (50, 20) = (150, 120) := by
  refine ⟨?_, by decide, by decide⟩
  intro c0 p0 c1
  simp only [process_cursor_move, begin_interactive_move, Prod.mk.injEq]
  omega

/-- C10: the ancestor walk of `desktop_toplevel_at` dereferences null
(`Except.error`) exactly when no ancestor scene tree of the hit buffer
node carries a non-null `data` back-pointer; when some ancestor does —
as holds for every surface created by `server_new_xdg_toplevel`, which
sets the toplevel's scene-tree `data` — the walk returns the owner
stored at the first such tree. -/
theorem desktop_toplevel_at_walk_spec :
    (∀ chain : List (Option Nat),
        ancestor_data_walk chain = Except.error () ↔ ∀ x ∈ chain, x = none) ∧
    (∀ (pre : List (Option Nat)) (t : Nat) (rest : List (Option Nat)),
        (∀ x ∈ pre, x = none) →
        ancestor_data_walk (toplevel_surface_chain pre t rest) =
          Except.ok t) := by
  constructor
  · intro chain
    induction chain with
    | nil => simp [ancestor_data_walk]
    | cons x rest ih =>
      cases x with
      | none => simpa [ancestor_data_walk] using ih
      | some d => simp [ancestor_data_walk]
  · intro pre t rest hpre
    induction pre with
    | nil => simp [toplevel_surface_chain, ancestor_data_walk]
    | cons x pre ih =>
      have hx : x = none := hpre x (List.mem_cons_self _ _)
      subst hx
      simpa [toplevel_surface_chain, ancestor_data_walk] using
        ih (fun y hy => hpre y (List.mem_cons_of_mem _ hy))

/-- Witness for `desktop_toplevel_at_walk_spec` on a chain with one
data-less ancestor below the owning tree. -/
theorem desktop_toplevel_at_walk_spec_witness :
    ancestor_data_walk (toplevel_surface_chain [none] 5 []) = Except.ok 5 :=
  desktop_toplevel_at_walk_spec.2 [none] 5 [] (by simp)

/-! Rotation lemmas for `cycle_toplevel`. -/

theorem rotR_eq_cons {l : List Nat} (h : l ≠ []) :
    rotR l = l.getLast h :: l.dropLast := by
  cases l with
  | nil => exact absurd rfl h
  | cons x xs => rfl

theorem rotR_perm (l : List Nat) : List.Perm (rotR l) l := by
  rcases eq_or_ne l [] with h | h
  · subst h; simp [rotR]
  · rw [rotR_eq_cons h]
    have h1 : l.dropLast ++ [l.getLast h] = l := List.dropLast_concat_getLast h
    have h2 := (List.perm_append_singleton (l.getLast h) l.dropLast).symm
    rw [h1] at h2
    exact h2

theorem rotL_rotR (l : List Nat) : rotL (rotR l) = l := by
  rcases eq_or_ne l [] with h | h
  · subst h; rfl
  · rw [rotR_eq_cons h]
    show l.dropLast ++ [l.getLast h] = l
    exact List.dropLast_concat_getLast h

theorem rotR_rotL (l : List Nat) : rotR (rotL l) = l := by
  cases l with
  | nil => rfl
  | cons x xs =>
    show rotR (xs ++ [x]) = x :: xs
    rw [rotR_eq_cons (l := xs ++ [x]) (by simp)]
    simp [List.getLast_concat, List.dropLast_concat]

theorem rotL_eq_rotate (l : List Nat) : rotL l = l.rotate 1 := by
  cases l with
  | nil => simp [rotL]
  | cons x xs =>
    show xs ++ [x] = (x :: xs).rotate 1
    rw [show (1 : Nat) = 0 + 1 from rfl, List.rotate_cons_succ, List.rotate_zero]

theorem rotL_iter_eq_rotate (k : Nat) (l : List Nat) :
    rotL^[k] l = l.rotate k := by
  induction k generalizing l with
  | zero => simp
  | succ k ih =>
    rw [Function.iterate_succ_apply', ih, rotL_eq_rotate, List.rotate_rotate]

theorem rotR_iter_cancel (k : Nat) (l : List Nat) :
    rotR^[k] (rotL^[k] l) = l := by
  induction k generalizing l with
  | zero => rfl
  | succ k ih =>
    rw [Function.iterate_succ_apply' (f := rotL),
        Function.iterate_succ_apply (f := rotR), rotR_rotL]
    exact ih l

theorem rotR_iter_length (l : List Nat) : rotR^[l.length] l = l := by
  have h := rotR_iter_cancel l.length l
  rwa [rotL_iter_eq_rotate, List.rotate_length] at h

theorem rotR_iter_perm (k : Nat) (l : List Nat) : List.Perm (rotR^[k] l) l := by
  induction k with
  | zero => exact List.Perm.refl l
  | succ k ih =>
    rw [Function.iterate_succ_apply']
    exact (rotR_perm _).trans ih

theorem erase_getLast_of_nodup :
    ∀ (l : List Nat), l.Nodup → ∀ (h : l ≠ []),
      l.erase (l.getLast h) = l.dropLast := by
  intro l
  induction l using List.reverseRecOn with
  | nil => intro _ h; exact absurd rfl h
  | append_singleton l' a _ =>
    intro hnd _
    have ha : a ∉ l' := fun hmem =>
      (List.nodup_append.mp hnd).2.2 hmem (by simp)
    rw [List.getLast_concat, List.dropLast_concat,
        List.erase_append_right _ (by simpa using ha)]
    simp

theorem head_ne_getLast_of_nodup {l : List Nat} (hnd : l.Nodup)
    (h2 : 2 ≤ l.length) (h : l ≠ []) : l.head? ≠ some (l.getLast h) := by
  cases l with
  | nil => exact absurd rfl h
  | cons x xs =>
    cases xs with
    | nil => simp at h2
    | cons y ys =>
      have hmem : (y :: ys).getLast (by simp) ∈ y :: ys := List.getLast_mem _
      have hx : x ∉ y :: ys := (List.nodup_cons.mp hnd).1
      rw [List.getLast_cons (by simp)]
      intro he
      exact hx ((Option.some.injEq _ _ ▸ he : x = _) ▸ hmem)

/-- One `cycle_toplevel` on a state whose focus is the front of a
duplicate-free sequence of length at least 2 rotates the sequence right
by one and focuses the new front. -/
theorem cycle_adv (st : FocusState) (h2 : 2 ≤ st.toplevels.length)
    (hnd : st.toplevels.Nodup) (hf : st.focused = st.toplevels.head?) :
    (cycle_toplevel st).toplevels = rotR st.toplevels ∧
    (cycle_toplevel st).focused = (rotR st.toplevels).head? := by
  have hne : st.toplevels ≠ [] := by
    intro he; rw [he] at h2; simp at h2
  have hlast : st.toplevels.getLast? = some (st.toplevels.getLast hne) :=
    List.getLast?_eq_getLast_of_ne_nil hne
  have hnotfoc : st.focused ≠ some (st.toplevels.getLast hne) := by
    rw [hf]; exact head_ne_getLast_of_nodup hnd h2 hne
  unfold cycle_toplevel
  rw [if_neg (by omega), hlast]
  simp only [focusSt, focus_toplevel, if_neg hnotfoc]
  constructor
  · show _ :: st.toplevels.erase _ = rotR st.toplevels
    rw [erase_getLast_of_nodup st.toplevels hnd hne, rotR_eq_cons hne]
  · rw [rotR_eq_cons hne]
    rfl

theorem cycle_iter (k : Nat) (st : FocusState)
    (h2 : 2 ≤ st.toplevels.length) (hnd : st.toplevels.Nodup)
    (hf : st.focused = st.toplevels.head?) :
    (cycle_toplevel^[k] st).toplevels = rotR^[k] st.toplevels ∧
    (cycle_toplevel^[k] st).focused = (rotR^[k] st.toplevels).head? := by
  induction k with
  | zero => exact ⟨rfl, hf⟩
  | succ k ih =>
    obtain ⟨ht, hfoc⟩ := ih
    have hperm := rotR_iter_perm k st.toplevels
    have h2' : 2 ≤ (cycle_toplevel^[k] st).toplevels.length := by
      rw [ht, hperm.length_eq]; exact h2
    have hnd' : (cycle_toplevel^[k] st).toplevels.Nodup := by
      rw [ht]; exact hperm.symm.nodup hnd
    have hf' : (cycle_toplevel^[k] st).focused =
        (cycle_toplevel^[k] st).toplevels.head? := by
      rw [ht, hfoc]
    have hadv := cycle_adv _ h2' hnd' hf'
    rw [Function.iterate_succ_apply' (f := cycle_toplevel),
        Function.iterate_succ_apply' (f := rotR)]
    exact ⟨by rw [hadv.1, ht], by rw [hadv.2, ht]⟩

/-- C3: with at least two mapped toplevels (distinct, focus at the
front), one `cycle_toplevel` focuses the back of the sequence and
rotates it to the front, and iterating `cycle_toplevel` as many times
as there are toplevels restores both the sequence and the focus; with
fewer than two toplevels `cycle_toplevel` changes nothing. -/
theorem cycle_rotation :
    (∀ st : FocusState, st.toplevels.length < 2 → cycle_toplevel st = st) ∧
    (∀ st : FocusState, 2 ≤ st.toplevels.length → st.toplevels.Nodup →
        st.focused = st.toplevels.head? →
        (cycle_toplevel st).focused = st.toplevels.getLast? ∧
        (cycle_toplevel st).toplevels = rotR st.toplevels ∧
        (cycle_toplevel^[st.toplevels.length] st).toplevels = st.toplevels ∧
        (cycle_toplevel^[st.toplevels.length] st).focused = st.focused) := by
  constructor
  · intro st h
    unfold cycle_toplevel
    rw [if_pos h]
  · intro st h2 hnd hf
    have hne : st.toplevels ≠ [] := by
      intro he; rw [he] at h2; simp at h2
    have hadv := cycle_adv st h2 hnd hf
    have hiter := cycle_iter st.toplevels.length st h2 hnd hf
    refine ⟨?_, hadv.1, ?_, ?_⟩
    · rw [hadv.2, rotR_eq_cons hne,
          List.getLast?_eq_getLast_of_ne_nil hne]
      rfl
    · rw [hiter.1, rotR_iter_length]
    · rw [hiter.2, rotR_iter_length, hf]

/-- Witness for `cycle_rotation` on the three-toplevel state of
scenario S4. -/
theorem cycle_rotation_witness :
    (cycle_toplevel^[3] ⟨[1, 2, 3], [1, 2, 3], some 1⟩).toplevels =
      [1, 2, 3] :=
  (cycle_rotation.2 ⟨[1, 2, 3], [1, 2, 3], some 1⟩ (by decide) (by decide)
    (by decide)).2.2.1

/-- C4: the focus contract of `focus_toplevel`: `NULL` is a complete
no-op; focusing the toplevel whose surface already holds keyboard focus
is a complete no-op (state unchanged and no deactivate/activate calls
emitted); otherwise a mapped toplevel ends up at the front of the
focus-ordered sequence with its scene subtree topmost. -/
theorem focus_contract :
    (∀ st : FocusState, focus_toplevel none st = (st, [])) ∧
    (∀ (st : FocusState) (t : Nat), st.focused = some t →
        focus_toplevel (some t) st = (st, [])) ∧
    (∀ (st : FocusState) (t : Nat), t ∈ st.toplevels →
        st.focused ≠ some t →
        (focusSt (some t) st).toplevels.head? = some t ∧
        (focusSt (some t) st).zorder.head? = some t) := by
  refine ⟨fun st => rfl, fun st t h => ?_, fun st t hmem hne => ?_⟩
  · simp [focus_toplevel, h]
  · simp [focusSt, focus_toplevel, hne]

/-- Witness for `focus_contract` on a two-toplevel state. -/
theorem focus_contract_witness :
    (focusSt (some 2) ⟨[1, 2], [1, 2], some 1⟩).toplevels.head? = some 2 :=
  (focus_contract.2.2 ⟨[1, 2], [1, 2], some 1⟩ 2 (by decide) (by decide)).1

/-! Keyboard dispatch lemmas. -/

theorem keyFold_fst :
    ∀ (syms : List Nat) (acc : Bool × List KAction) (h : syms ≠ []),
      (syms.foldl keyFoldStep acc).1 =
        (handle_keybinding (syms.getLast h)).1 := by
  intro syms
  induction syms with
  | nil => intro acc h; exact absurd rfl h
  | cons x xs ih =>
    intro acc h
    cases xs with
    | nil => rfl
    | cons y ys =>
      have hg : (x :: y :: ys).getLast h = (y :: ys).getLast (by simp) :=
        List.getLast_cons (by simp)
      rw [List.foldl_cons, ih (keyFoldStep acc x) (by simp), hg]

theorem keyFold_snd :
    ∀ (syms : List Nat) (acc : Bool × List KAction),
      (syms.foldl keyFoldStep acc).2 =
        acc.2 ++ syms.flatMap (fun s => (handle_keybinding s).2) := by
  intro syms
  induction syms with
  | nil => intro acc; simp
  | cons x xs ih =>
    intro acc
    rw [List.foldl_cons, ih (keyFoldStep acc x), List.flatMap_cons]
    show (acc.2 ++ (handle_keybinding x).2) ++ _ = _
    rw [List.append_assoc]

theorem scanUser_eq_find (sym : Nat) (l : List UserBinding) :
    scanUser sym l =
      (l.find? (fun b => b.key == sym)).map UserBinding.command := by
  induction l with
  | nil => rfl
  | cons b rest ih =>
    by_cases hb : b.key = sym
    · rw [scanUser, if_pos hb, List.find?_cons_of_pos _ (by simpa using hb)]
      rfl
    · rw [scanUser, if_neg hb, List.find?_cons_of_neg _ (by simpa using hb),
          ih]

theorem scanComp_eq_find (sym : Nat) (l : List CompositorBinding) :
    scanComp sym l =
      (l.find? (fun b => b.key == sym)).map CompositorBinding.fptr := by
  induction l with
  | nil => rfl
  | cons b rest ih =>
    by_cases hb : b.key = sym
    · rw [scanComp, if_pos hb, List.find?_cons_of_pos _ (by simpa using hb)]
      rfl
    · rw [scanComp, if_neg hb, List.find?_cons_of_neg _ (by simpa using hb),
          ih]

/-- C5 counterexample: with ALT held, a press whose keysym list is
`[Return, a]` has its first keysym match the `Return → kitty` launcher
binding — the command even executes — yet, because `handled` is
overwritten by the result for the final keysym, the press IS forwarded
to the focused client, contradicting the claim. -/
theorem launcher_match_still_forwarded :
    (scanUser 0xff0d bindings).isSome = true ∧
    (keyboard_handle_key 8 true [0xff0d, 0x61]).2 =
      [KAction.launch "kitty"] ∧
    (keyboard_handle_key 8 true [0xff0d, 0x61]).1 = true := by
  refine ⟨rfl, rfl, rfl⟩

/-- C5 amended: with ALT held, a press whose LAST produced keysym
matches a launcher binding is not forwarded to the focused client
(`handled` holds the result for the last keysym only); and a key
release never triggers any binding and is always forwarded verbatim. -/
theorem key_binding_interception :
    (∀ (mods : Nat) (syms : List Nat) (h : syms ≠ []),
        mods &&& MODKEY ≠ 0 →
        (scanUser (syms.getLast h) bindings).isSome = true →
        (keyboard_handle_key mods true syms).1 = false) ∧
    (∀ (mods : Nat) (syms : List Nat),
        keyboard_handle_key mods false syms = (true, [])) := by
  constructor
  · intro mods syms h hmod hu
    have hloop : (keyLoop syms).1 = (handle_keybinding (syms.getLast h)).1 :=
      keyFold_fst syms (false, []) h
    have hhk : (handle_keybinding (syms.getLast h)).1 = true := by
      simp only [handle_keybinding, Bool.or_eq_true]
      exact Or.inl hu
    simp only [keyboard_handle_key, if_pos (And.intro hmod trivial)]
    rw [hloop, hhk]
    rfl
  · intro mods syms
    simp [keyboard_handle_key]

/-- Witness for `key_binding_interception`: ALT+Return alone is
consumed. -/
theorem key_binding_interception_witness :
    (keyboard_handle_key 8 true [0xff0d]).1 = false :=
  key_binding_interception.1 8 [0xff0d] (by decide) (by decide) rfl

/-- C6 counterexample: a press with ALT held whose keycode produces the
two keysyms `[Return, Escape]` triggers TWO actions — `kitty` from the
launcher table and terminate from the compositor table — contradicting
"exactly one action in total". -/
theorem multisym_two_actions :
    (keyboard_handle_key 8 true [0xff0d, 0xff1b]).2 =
      [KAction.launch "kitty", KAction.run CompositorFn.terminateDisplay] ∧
    (keyboard_handle_key 8 true [0xff0d, 0xff1b]).2.length = 2 := by
  refine ⟨rfl, rfl⟩

/-- C6 amended: binding matching is deterministic in table order (each
scan returns the first matching entry, as `List.find?` does); every
produced keysym is run through both binding tables (the executed
actions are the concatenation over the keysyms in order); and each
keysym triggers one action per table it matches — so the press triggers
exactly one action in total only when exactly one produced keysym
matches exactly one table. -/
theorem handle_keybinding_multisym :
    (∀ (sym : Nat) (l : List UserBinding),
        scanUser sym l =
          (l.find? (fun b => b.key == sym)).map UserBinding.command) ∧
    (∀ (sym : Nat) (l : List CompositorBinding),
        scanComp sym l =
          (l.find? (fun b => b.key == sym)).map CompositorBinding.fptr) ∧
    (∀ (mods : Nat) (syms : List Nat), mods &&& MODKEY ≠ 0 →
        (keyboard_handle_key mods true syms).2 =
          syms.flatMap (fun s => (handle_keybinding s).2)) ∧
    (∀ sym : Nat, (handle_keybinding sym).2.length =
        (if (scanUser sym bindings).isSome then 1 else 0) +
        (if (scanComp sym c_bindings).isSome then 1 else 0)) := by
  refine ⟨scanUser_eq_find, scanComp_eq_find, ?_, ?_⟩
  · intro mods syms hmod
    simp only [keyboard_handle_key, if_pos (And.intro hmod trivial)]
    exact keyFold_snd syms (false, [])
  · intro sym
    simp only [handle_keybinding]
    rcases hu : scanUser sym bindings with _ | cmd <;>
      rcases hc : scanComp sym c_bindings with _ | f <;> simp

/-- Witness for `handle_keybinding_multisym` at ALT with syms
`[Return, Escape]`. -/
theorem handle_keybinding_multisym_witness :
    (keyboard_handle_key 8 true [0xff0d, 0xff1b]).2 =
      [0xff0d, 0xff1b].flatMap (fun s => (handle_keybinding s).2) :=
  handle_keybinding_multisym.2.2.1 8 [0xff0d, 0xff1b] (by decide)

/-! Command-line lemmas. -/

theorem get?_cons_one (a b : List Char) (l : List (List Char)) :
    (a :: b :: l).get? 1 = some b := rfl

theorem get?_cons_one_one (a b c : List Char) (l : List (List Char)) :
    (a :: b :: c :: l).get? (1 + 1) = some c := rfl

/-- C9 counterexample: the invocation `nocturne foo` carries a trailing
argument associated with no flag, yet `process_args` returns 1 and
`main` starts initialization: `getopt` returns -1 at the first
non-option argument, so the trailing-argument check inside the loop
body never runs — contradicting the claimed non-zero exit. -/
theorem trailing_args_accepted :
    process_args [['n'], ['f', 'o', 'o']] = ArgsResult.proceed none ∧
    main_disposition [['n'], ['f', 'o', 'o']] =
      MainOutcome.runsCompositor none := by
  refine ⟨rfl, rfl⟩

/-- C9 amended: `-h` (even first in an option cluster) prints usage and
exits 0; an unknown option exits non-zero before initialization;
trailing arguments are rejected with a non-zero exit only when they
follow at least one processed option (here: after `-s cmd`); an
invocation whose first argument after the program name is not an
option proceeds to initialization with the extra arguments ignored. -/
theorem process_args_spec :
    (∀ (prog tail : List Char) (rest : List (List Char)),
        process_args (prog :: ('-' :: 'h' :: tail) :: rest) =
          ArgsResult.usageExit ∧
        main_disposition (prog :: ('-' :: 'h' :: tail) :: rest) =
          MainOutcome.exitSuccess) ∧
    (∀ (prog : List Char) (c : Char) (tail : List Char)
        (rest : List (List Char)), c ≠ 'h' → c ≠ 's' → c ≠ '-' →
        process_args (prog :: ('-' :: c :: tail) :: rest) =
          ArgsResult.errorExit ∧
        main_disposition (prog :: ('-' :: c :: tail) :: rest) =
          MainOutcome.exitFailurePreInit) ∧
    (∀ (prog cmd : List Char) (rest : List (List Char)), rest ≠ [] →
        process_args (prog :: ['-', 's'] :: cmd :: rest) =
          ArgsResult.errorExit) ∧
    (∀ (prog : List Char) (c : Char) (tail : List Char)
        (rest : List (List Char)), c ≠ '-' →
        process_args (prog :: (c :: tail) :: rest) =
          ArgsResult.proceed none) := by
  have hHelp : ∀ (prog tail : List Char) (rest : List (List Char)),
      process_args (prog :: ('-' :: 'h' :: tail) :: rest) =
        ArgsResult.usageExit := by
    intro prog tail rest
    simp only [process_args]
    rw [argsLoop, get?_cons_one]
    dsimp only
    rw [if_neg (by decide), if_neg (fun hc => absurd hc.1 (by decide)),
        if_pos rfl]
  have hUnknown : ∀ (prog : List Char) (c : Char) (tail : List Char)
      (rest : List (List Char)), c ≠ 'h' → c ≠ 's' → c ≠ '-' →
      process_args (prog :: ('-' :: c :: tail) :: rest) =
        ArgsResult.errorExit := by
    intro prog c tail rest hh hs hd
    simp only [process_args]
    rw [argsLoop, get?_cons_one]
    dsimp only
    rw [if_neg (by decide), if_neg (fun hc => absurd hc.1 hd), if_neg hh,
        if_neg hs]
  refine ⟨?_, ?_, ?_, ?_⟩
  · intro prog tail rest
    refine ⟨hHelp prog tail rest, ?_⟩
    simp only [main_disposition, hHelp prog tail rest]
  · intro prog c tail rest hh hs hd
    refine ⟨hUnknown prog c tail rest hh hs hd, ?_⟩
    simp only [main_disposition, hUnknown prog c tail rest hh hs hd]
  · intro prog cmd rest hne
    simp only [process_args]
    rw [argsLoop, get?_cons_one]
    dsimp only
    rw [if_neg (by decide), if_neg (fun hc => absurd hc.1 (by decide)),
        if_neg (by decide), if_pos rfl]
    try dsimp only
    rw [get?_cons_one_one]
    try dsimp only
    rw [if_pos (by
      have := List.length_pos.mpr hne
      simp only [List.length_cons]
      omega)]
  · intro prog c tail rest hc
    cases tail with
    | nil =>
      simp only [process_args]
      rw [argsLoop, get?_cons_one]
    | cons t0 ts =>
      simp only [process_args]
      rw [argsLoop, get?_cons_one]
      dsimp only
      rw [if_pos hc]

/-- Witness for `process_args_spec`: `nocturne -q` exits non-zero
before initialization. -/
theorem process_args_spec_witness :
    process_args [['n'], ['-', 'q']] = ArgsResult.errorExit :=
  (process_args_spec.2.1 ['n'] 'q' [] [] (by decide) (by decide)
    (by decide)).1

end Nocturne
